import Mathlib

/-!
Shallow embedding of `televoice_identification.py` (telecom-voice-classification).

The file embeds the three components the claims are about:
* `Result` with its derived properties `filename`, `matched_golden_ptn`, `mrd`
  and `result_type` (the result classifier);
* `read_golden_ptns` (the cached golden-pattern store with its retry loop),
  modelled as a step function over an explicit cache state plus a fuel-indexed
  loop over a stream of cache states (the state may be changed between
  iterations by other processes);
* `televoice_identify` (the identification pipeline), modelled over an
  environment recording the outcome of each external step and an explicit
  flag for the on-disk temporary artifact.

Difference scores are modelled as integers (the Python floats only ever enter
the claims through order comparisons and subtraction, which `Int` shares with
the reals); Python dicts are modelled as insertion-ordered association lists.
-/

namespace Televoice

/-- Python `os.path.basename`: the part of the path after the last `/`
(computed by a character fold that restarts at each separator). -/
def basename (p : String) : String :=
  String.mk (p.data.foldl (fun acc c => if c = '/' then [] else acc ++ [c]) [])

/-- A difference score (`Int` stands for the non-negative float scores). -/
abbrev Score := Int

/-- A Python dict from golden-pattern identifier to difference score,
as an insertion-ordered association list. -/
abbrev ScoreMap := List (String × Score)

/-- One step of Python `min(iterable, key=f)`: the current best is replaced
only on a strictly smaller value, so the first element attaining the minimum
wins. -/
def minStep (b y : String × Score) : String × Score := if y.2 < b.2 then y else b

/-- Python `min(iterable, key=f)` specialised to the pairs of a `ScoreMap`
with `f = dict.get`: a left fold of `minStep`. `none` on an empty dict
(Python raises `ValueError`). -/
def pyMinByVal : ScoreMap → Option (String × Score)
  | [] => none
  | x :: xs => some (xs.foldl minStep x)

/-- Python `min(values)`: `none` on an empty iterable (`ValueError`). -/
def pyMinVals : List Score → Option Score
  | [] => none
  | x :: xs => some (xs.foldl min x)

/-- Python `max(values)`: `none` on an empty iterable (`ValueError`). -/
def pyMaxVals : List Score → Option Score
  | [] => none
  | x :: xs => some (xs.foldl max x)

/-- Python `str(b).upper()` for a `bool` `b`: `"TRUE"` or `"FALSE"`. -/
def pyStrBoolUpper (b : Bool) : String := if b then "TRUE" else "FALSE"

/-- The `Result` object: target file path, the raw difference indices
(`diff_indice`, a dict), and the elapsed time. -/
structure Result where
  filepath : String
  diff_indice : ScoreMap
  exe_time : Int

/-- Python `Result.filename`: `os.path.basename(self.filepath)`. -/
def Result.filename (r : Result) : String := basename r.filepath

/-- Python `Result.matched_golden_ptn`:
`(min(self.diff_indice, key=self.diff_indice.get), min(self.diff_indice.values()))`.
`none` when the dict is empty (Python would raise `ValueError`). -/
def Result.matched_golden_ptn (r : Result) : Option (String × Score) :=
  match pyMinByVal r.diff_indice, pyMinVals (r.diff_indice.map Prod.snd) with
  | some p, some v => some (p.1, v)
  | _, _ => none

/-- Python `Result.mrd`: `max(self.diff_indice.values()) - min(self.diff_indice.values())`.
`none` when the dict is empty (Python would raise `ValueError`). -/
def Result.mrd (r : Result) : Option Score :=
  match pyMaxVals (r.diff_indice.map Prod.snd), pyMinVals (r.diff_indice.map Prod.snd) with
  | some mx, some mn => some (mx - mn)
  | _, _ => none

/-- Python `Result.result_type`:
`'TYPICAL'` if `self.mrd < 2000 and self.matched_golden_ptn[1] > 2000`, else
`str(self.filename[:2] == self.matched_golden_ptn[0][:2]).upper()`. -/
def Result.result_type (r : Result) : Option String :=
  match r.mrd, r.matched_golden_ptn with
  | some mrdv, some mg =>
      if mrdv < 2000 ∧ mg.2 > 2000 then some "TYPICAL"
      else some (pyStrBoolUpper (r.filename.take 2 == mg.1.take 2))
  | _, _ => none

/-- An MFCC pattern: a matrix of feature values (one row per frame),
modelled with integer entries like the scores. -/
abbrev Pattern := List (List Int)

/-- The golden-pattern dictionary (`ReferenceLibrary`): identifier ↦ pattern,
in insertion (= enumeration) order. -/
abbrev Lib := List (String × Pattern)

/-- The Python exceptions that cross the boundaries the claims talk about. -/
inductive PyErr where
  | ioError (msg : String)
  | valueError (msg : String)
  deriving DecidableEq

/-- The state of the cache blob `temp/golden_ptns.pickle` as one iteration of
the retry loop observes it (other processes may change it between
iterations). -/
inductive CacheState where
  | absent
  | empty
  | corrupt (msg : String)
  | valid (lib : Lib)
  | readFail (msg : String)
  deriving DecidableEq

/-- The environment of `read_golden_ptns`: whether `os.listdir(folderpath)`
succeeds, the regular files it yields (in enumeration order), and the outcome
of `wav.read` + `mfcc` on each file. -/
structure GoldenEnv where
  listable : Bool
  files : List String
  extract : String → Except PyErr Pattern

/-- The build branch of `read_golden_ptns`: extract the MFCC pattern of each
enumerated file in order, keyed by `basename`; the first failing extraction
propagates as its exception. -/
def extractAll (ex : String → Except PyErr Pattern) : List String → Except PyErr Lib
  | [] => .ok []
  | f :: fs => do
      let ptn ← ex f
      let rest ← extractAll ex fs
      .ok ((basename f, ptn) :: rest)

/-- The outcome of one iteration of the `while True` loop of
`read_golden_ptns`: return a library (with a flag recording whether the build
branch ran), let an exception propagate, or log a warning and retry. -/
inductive StepOut where
  | ret (lib : Lib) (built : Bool)
  | raised (e : PyErr)
  | retry (warning : String)
  deriving DecidableEq

/-- One iteration of the loop of `read_golden_ptns`:
* a loadable pickle is returned as-is (no build work);
* `FileNotFoundError` on the pickle takes the build branch (`os.listdir`,
  per-file extraction, dump, return);
* `EOFError` (zero-byte pickle) and `pickle.UnpicklingError` print a warning
  and `continue`;
* any other read failure propagates. -/
def readStep (env : GoldenEnv) (st : CacheState) : StepOut :=
  match st with
  | .valid lib => .ret lib false
  | .absent =>
      if env.listable then
        match extractAll env.extract env.files with
        | .ok lib => .ret lib true
        | .error e => .raised e
      else .raised (.ioError "golden_wav folder unreadable")
  | .empty =>
      .retry "[Warning] Try to load golden_ptns.pickle but is empty, automatically retrying.."
  | .corrupt m =>
      .retry ("[Warning] Try to load golden_ptns.pickle but " ++ m ++ "Automatically retrying..")
  | .readFail m => .raised (.ioError m)

/-- The `while True` loop of `read_golden_ptns`, iterated from stream index
`i` with the given fuel: `none` means the loop has neither returned nor
raised within `fuel` iterations. -/
def runFrom (env : GoldenEnv) (stream : Nat → CacheState) :
    Nat → Nat → Option (Except PyErr (Lib × Bool))
  | _, 0 => none
  | i, fuel + 1 =>
      match readStep env (stream i) with
      | .ret lib b => some (.ok (lib, b))
      | .raised e => some (.error e)
      | .retry _ => runFrom env stream (i + 1) fuel

/-- Function `read_golden_ptns(folderpath)`: run the retry loop from the first
observed cache state. -/
def read_golden_ptns (env : GoldenEnv) (stream : Nat → CacheState) (fuel : Nat) :
    Option (Except PyErr (Lib × Bool)) :=
  runFrom env stream 0 fuel

/-- The environment of one `televoice_identify` call: the outcome of the
golden-pattern load, whether the `ffmpeg` executable exists, whether the
`ffmpeg` run produced the `.tmp` output file, and the outcome of `wav.read`,
`mfcc` and `ptns_cmp` on the target. `removeFails` records `os.remove`
raising `OSError` on a still-existing file (e.g. permissions). -/
structure PipeEnv where
  golden : Except PyErr Lib
  ffmpegFound : Bool
  ffmpegMakesTmp : Bool
  wavRead : Except PyErr (Int × List Int)
  mfccOut : Except PyErr Pattern
  cmp : Except PyErr ScoreMap
  removeFails : Bool
  elapsed : Int

/-- How a `televoice_identify` call ends: a `Result`, a propagated exception,
or `sys.exit(code)` after printing `msg`. -/
inductive IdOutcome where
  | ok (r : Result)
  | raised (e : PyErr)
  | exited (code : Nat) (msg : String)

/-- The call-scoped file-system state: whether the temporary artifact
`temp/<basename>.tmp` exists when the call finishes. -/
structure FS where
  tmpExists : Bool
  deriving DecidableEq

/-- Function `televoice_identify(filepath, ...)`, step by step as in the source:
1. load the golden patterns (an exception propagates);
2. run `ffmpeg` on `filepath`; `FileNotFoundError` (no `ffmpeg` binary)
   prints a remediation message and calls `sys.exit(2)`; otherwise the run
   may or may not have produced the `.tmp` file;
3. `wav.read` on the `.tmp` path, then `mfcc`, then `ptns_cmp`; an exception
   in any of these propagates with the `.tmp` file left as `ffmpeg` made it;
4. `os.remove` the `.tmp` file with `OSError` suppressed, then return the
   `Result`. -/
def televoice_identify (env : PipeEnv) (filepath : String) : IdOutcome × FS :=
  match env.golden with
  | .error e => (.raised e, ⟨false⟩)
  | .ok _golden =>
    if env.ffmpegFound then
      let fs1 : FS := ⟨env.ffmpegMakesTmp⟩
      match env.wavRead with
      | .error e => (.raised e, fs1)
      | .ok _sig =>
        match env.mfccOut with
        | .error e => (.raised e, fs1)
        | .ok _target =>
          match env.cmp with
          | .error e => (.raised e, fs1)
          | .ok d =>
              (.ok ⟨filepath, d, env.elapsed⟩, ⟨fs1.tmpExists && env.removeFails⟩)
    else
      (.exited 2 "[Error] Require ffmpeg to convert the audio in sepcific format.", ⟨false⟩)

/-- A stream in which the cache blob is a zero-byte file at every
iteration (no other process ever completes a write). -/
def emptyStream : Nat → CacheState := fun _ => CacheState.empty

/-- A stream in which the cache blob is absent at the first iteration. -/
def absentStream : Nat → CacheState := fun _ => CacheState.absent

/-- A sample environment: a readable golden directory with one audio file. -/
def envDemo : GoldenEnv := ⟨true, ["a.wav"], fun _ => .ok [[1]]⟩

/-- A sample golden-pattern library. -/
def libDemo : Lib := [("ref1.wav", [[1, 2]])]

/-- A readable golden directory containing no files at all. -/
def envEmptyDir : GoldenEnv := ⟨true, [], fun _ => .ok []⟩

/-- An unreadable golden directory (`os.listdir` fails). -/
def envUnreadable : GoldenEnv := ⟨false, [], fun _ => .ok []⟩

/-- Predicate: `read_golden_ptns` neither returns nor raises within any number of loop
iterations. -/
def read_never_finishes (env : GoldenEnv) (stream : Nat → CacheState) : Prop :=
  ∀ fuel, read_golden_ptns env stream fuel = none

/-- An environment whose `ffmpeg` run creates the `.tmp` file but whose
`wav.read` on it then fails. -/
def envWavFail : PipeEnv :=
  ⟨.ok [], true, true, .error (.ioError "tmp unreadable"), .ok [], .ok [], false, 0⟩

/-- An environment in which every step succeeds. -/
def envAllOk : PipeEnv :=
  ⟨.ok [], true, true, .ok (8000, [0]), .ok [[1]], .ok [("A", 5)], false, 1⟩

/-- An environment in which the `ffmpeg` executable is missing. -/
def envNoFfmpeg : PipeEnv :=
  ⟨.ok [], false, false, .ok (8000, [0]), .ok [], .ok [], false, 0⟩

lemma minStep_snd (b y : String × Score) : (minStep b y).2 = min b.2 y.2 := by
  unfold minStep
  rcases lt_or_ge y.2 b.2 with h | h
  · rw [if_pos h, min_eq_right h.le]
  · rw [if_neg (not_lt.mpr h), min_eq_left h]

lemma minStep_cases (b y : String × Score) : minStep b y = b ∨ minStep b y = y := by
  unfold minStep
  split
  · exact Or.inr rfl
  · exact Or.inl rfl

lemma foldl_minStep_mem (xs : ScoreMap) : ∀ x, xs.foldl minStep x ∈ x :: xs := by
  induction xs with
  | nil => intro x; simp
  | cons y ys ih =>
      intro x
      rw [List.foldl_cons]
      rcases List.mem_cons.mp (ih (minStep x y)) with h | h
      · rw [h]
        rcases minStep_cases x y with h' | h' <;> rw [h'] <;> simp
      · simp [h]

lemma foldl_minStep_snd (xs : ScoreMap) :
    ∀ x, (xs.foldl minStep x).2 = (xs.map Prod.snd).foldl min x.2 := by
  induction xs with
  | nil => intro x; rfl
  | cons y ys ih =>
      intro x
      rw [List.foldl_cons, ih (minStep x y), List.map_cons, List.foldl_cons, minStep_snd]

lemma foldl_min_le_init (l : List Score) : ∀ a : Score, l.foldl min a ≤ a := by
  induction l with
  | nil => intro a; exact le_refl a
  | cons y ys ih =>
      intro a
      rw [List.foldl_cons]
      exact le_trans (ih (min a y)) (min_le_left a y)

lemma foldl_min_le_mem (l : List Score) :
    ∀ a : Score, ∀ y ∈ l, l.foldl min a ≤ y := by
  induction l with
  | nil => intro a y hy; simp at hy
  | cons z zs ih =>
      intro a y hy
      rw [List.foldl_cons]
      rcases List.mem_cons.mp hy with h | h
      · rw [h]
        exact le_trans (foldl_min_le_init zs (min a z)) (min_le_right a z)
      · exact ih (min a z) y h

lemma init_le_foldl_max (l : List Score) : ∀ a : Score, a ≤ l.foldl max a := by
  induction l with
  | nil => intro a; exact le_refl a
  | cons y ys ih =>
      intro a
      rw [List.foldl_cons]
      exact le_trans (le_max_left a y) (ih (max a y))

lemma lookup_eq_of_nodup_keys (l : ScoreMap) (k : String) (v : Score)
    (hnd : (l.map Prod.fst).Nodup) (hm : (k, v) ∈ l) : l.lookup k = some v := by
  induction l with
  | nil => simp at hm
  | cons x xs ih =>
      rcases List.mem_cons.mp hm with h | h
      · rw [← h]
        simp [List.lookup]
      · have hk : k ∈ xs.map Prod.fst := List.mem_map.mpr ⟨(k, v), h, rfl⟩
        have hx : x.1 ≠ k := by
          intro he
          exact (List.nodup_cons.mp (by simpa using hnd)).1 (he ▸ hk)
        have : (k == x.1) = false := by
          simp [hx.symm]
        simp [List.lookup, this]
        exact ih (List.nodup_cons.mp (by simpa using hnd)).2 h

lemma matched_eq_foldl (r : Result) (x : String × Score) (xs : ScoreMap)
    (hd : r.diff_indice = x :: xs) :
    r.matched_golden_ptn = some (xs.foldl minStep x) := by
  unfold Result.matched_golden_ptn
  rw [hd]
  unfold pyMinByVal pyMinVals
  simp [← foldl_minStep_snd]

lemma foldl_minStep_first (k : String) (v : Score) (l₂ : ScoreMap)
    (h₂ : ∀ p ∈ l₂, v ≤ p.2) : l₂.foldl minStep (k, v) = (k, v) := by
  induction l₂ with
  | nil => rfl
  | cons y ys ih =>
      rw [List.foldl_cons]
      have hy : minStep (k, v) y = (k, v) := by
        unfold minStep
        exact if_neg (not_lt.mpr (h₂ y (List.mem_cons_self y ys)))
      rw [hy]
      exact ih (fun p hp => h₂ p (List.mem_cons_of_mem y hp))

lemma foldl_minStep_skip (l₁ : ScoreMap) (k : String) (v : Score) (l₂ : ScoreMap)
    (h₂ : ∀ p ∈ l₂, v ≤ p.2) :
    ∀ b, (∀ p ∈ l₁, v < p.2) → v < b.2 →
    (l₁ ++ (k, v) :: l₂).foldl minStep b = (k, v) := by
  induction l₁ with
  | nil =>
      intro b _ hb
      rw [List.nil_append, List.foldl_cons]
      have hb' : minStep b (k, v) = (k, v) := by
        unfold minStep
        exact if_pos hb
      rw [hb']
      exact foldl_minStep_first k v l₂ h₂
  | cons a l₁ ih =>
      intro b h₁ hb
      rw [List.cons_append, List.foldl_cons]
      have hstep : v < (minStep b a).2 := by
        rcases minStep_cases b a with h | h <;> rw [h]
        · exact hb
        · exact h₁ a (List.mem_cons_self a l₁)
      exact ih (minStep b a) (fun p hp => h₁ p (List.mem_cons_of_mem a hp)) hstep

/-- C10: when several references tie for the minimum score, the matched
reference is the first one in the mapping's insertion order: for a `ScoreMap`
`l₁ ++ (k, v) :: l₂` in which every entry of `l₁` scores strictly more than
`v` and every entry of `l₂` scores at least `v`, `matched_golden_ptn` is
`(k, v)` (and, the embedding being a pure function of the mapping, repeated
accesses agree). -/
theorem c10_tie_first_in_order (fp : String) (t : Int)
    (l₁ l₂ : ScoreMap) (k : String) (v : Score)
    (h₁ : ∀ p ∈ l₁, v < p.2) (h₂ : ∀ p ∈ l₂, v ≤ p.2) :
    (Result.mk fp (l₁ ++ (k, v) :: l₂) t).matched_golden_ptn = some (k, v) := by
  cases l₁ with
  | nil =>
      rw [matched_eq_foldl _ (k, v) l₂ rfl]
      rw [foldl_minStep_first k v l₂ h₂]
  | cons a l₁ =>
      rw [matched_eq_foldl _ a (l₁ ++ (k, v) :: l₂) rfl]
      rw [foldl_minStep_skip l₁ k v l₂ h₂ a
        (fun p hp => h₁ p (List.mem_cons_of_mem a hp)) (h₁ a (List.mem_cons_self a l₁))]

/-- C10 witness: in `{"B": 9, "A": 5, "C": 5}` the references `"A"` and
`"C"` tie for the minimum and the earlier one, `"A"`, is matched. -/
theorem c10_tie_first_in_order_witness :
    (Result.mk "x.wav" [("B", 9), ("A", 5), ("C", 5)] 0).matched_golden_ptn = some ("A", 5) :=
  c10_tie_first_in_order "x.wav" 0 [("B", 9)] [("C", 5)] "A" 5
    (by decide) (by decide)

/-- C6: for a non-empty `ScoreMap` with distinct keys, `matched_golden_ptn`
is a pair `(k, v)` with `v` the value stored at `k`, `v` minimal among all
scores, and `mrd = max − min` is non-negative. -/
theorem c6_matched_is_min (r : Result) (hne : r.diff_indice ≠ [])
    (hnd : (r.diff_indice.map Prod.fst).Nodup) :
    ∃ k v m, r.matched_golden_ptn = some (k, v) ∧
      r.diff_indice.lookup k = some v ∧
      (∀ p ∈ r.diff_indice, v ≤ p.2) ∧
      r.mrd = some m ∧ 0 ≤ m := by
  obtain ⟨x, xs, hd⟩ := List.exists_cons_of_ne_nil hne
  have hmem : xs.foldl minStep x ∈ r.diff_indice := hd ▸ foldl_minStep_mem xs x
  have hsnd : (xs.foldl minStep x).2 = (xs.map Prod.snd).foldl min x.2 :=
    foldl_minStep_snd xs x
  refine ⟨(xs.foldl minStep x).1, (xs.foldl minStep x).2,
    (xs.map Prod.snd).foldl max x.2 - (xs.map Prod.snd).foldl min x.2, ?_, ?_, ?_, ?_, ?_⟩
  · rw [matched_eq_foldl r x xs hd]
  · exact lookup_eq_of_nodup_keys r.diff_indice _ _ hnd hmem
  · intro p hp
    rw [hsnd]
    rw [hd] at hp
    rcases List.mem_cons.mp hp with h | h
    · rw [h]
      exact foldl_min_le_init _ x.2
    · exact foldl_min_le_mem _ x.2 p.2 (List.mem_map.mpr ⟨p, h, rfl⟩)
  · unfold Result.mrd
    rw [hd]
    rfl
  · exact sub_nonneg.mpr
      (le_trans (foldl_min_le_init (xs.map Prod.snd) x.2) (init_le_foldl_max (xs.map Prod.snd) x.2))

/-- C6 witness: the property instantiated on `{"A": 7, "B": 3, "C": 9}`. -/
theorem c6_matched_is_min_witness :
    ∃ k v m, (Result.mk "y.wav" [("A", 7), ("B", 3), ("C", 9)] 0).matched_golden_ptn = some (k, v) ∧
      [("A", 7), ("B", 3), ("C", 9)].lookup k = some v ∧
      (∀ p ∈ [("A", (7 : Score)), ("B", 3), ("C", 9)], v ≤ p.2) ∧
      (Result.mk "y.wav" [("A", 7), ("B", 3), ("C", 9)] 0).mrd = some m ∧ 0 ≤ m :=
  c6_matched_is_min (Result.mk "y.wav" [("A", 7), ("B", 3), ("C", 9)] 0)
    (by decide) (by decide)

lemma result_type_eq (r : Result) (m : Score) (p : String × Score)
    (hm : r.mrd = some m) (hp : r.matched_golden_ptn = some p) :
    r.result_type = if m < 2000 ∧ 2000 < p.2 then some "TYPICAL"
      else some (pyStrBoolUpper (r.filename.take 2 == p.1.take 2)) := by
  unfold Result.result_type
  rw [hm, hp]

/-- C5: for a non-empty `ScoreMap` the verdict is `'TYPICAL'` exactly when
`mrd < 2000` and the matched-reference score exceeds `2000` (so the check has
precedence over the filename comparison, which is never consulted in that
case); in particular `{"A": 3000, "B": 3500, "C": 3100}` is `'TYPICAL'` for
every target filename. -/
theorem c5_typical_iff :
    (∀ r : Result, r.diff_indice ≠ [] →
      (r.result_type = some "TYPICAL" ↔
        ∃ m p, r.mrd = some m ∧ r.matched_golden_ptn = some p ∧ m < 2000 ∧ 2000 < p.2)) ∧
    (∀ fp t, (Result.mk fp [("A", 3000), ("B", 3500), ("C", 3100)] t).result_type
      = some "TYPICAL") := by
  constructor
  · intro r hne
    obtain ⟨x, xs, hd⟩ := List.exists_cons_of_ne_nil hne
    have hm : r.mrd
        = some ((xs.map Prod.snd).foldl max x.2 - (xs.map Prod.snd).foldl min x.2) := by
      unfold Result.mrd
      rw [hd]
      rfl
    have hmg : r.matched_golden_ptn = some (xs.foldl minStep x) := matched_eq_foldl r x xs hd
    rw [result_type_eq r _ _ hm hmg, hm, hmg]
    constructor
    · intro h
      by_cases hc : (xs.map Prod.snd).foldl max x.2 - (xs.map Prod.snd).foldl min x.2 < 2000
          ∧ 2000 < (xs.foldl minStep x).2
      · exact ⟨_, _, rfl, rfl, hc.1, hc.2⟩
      · rw [if_neg hc] at h
        cases hb : (r.filename.take 2 == (xs.foldl minStep x).1.take 2) <;>
          simp [pyStrBoolUpper, hb] at h
    · rintro ⟨m, q, hm', hq', h1, h2⟩
      injection hm' with hm''
      injection hq' with hq''
      subst hm''
      subst hq''
      rw [if_pos ⟨h1, h2⟩]
  · intro fp t
    simp [Result.result_type, Result.mrd, Result.matched_golden_ptn, pyMinVals, pyMaxVals,
      pyMinByVal, minStep]

/-- C5 witness: the iff instantiated on the spec's concrete example. -/
theorem c5_typical_iff_witness :
    (Result.mk "X_sample.wav" [("A", 3000), ("B", 3500), ("C", 3100)] 0).result_type
      = some "TYPICAL" :=
  (c5_typical_iff.1 (Result.mk "X_sample.wav" [("A", 3000), ("B", 3500), ("C", 3100)] 0)
      (by decide)).mpr
    ⟨500, ("A", 3000), by decide, by decide, by decide, by decide⟩

/-- C1 counterexample: on `ScoreMap {"A": 500, "B": 7000, "C": 8000}` with
target filename `"A_sample.wav"` the verdict is the string `"FALSE"` — not
`"MATCH"` (and the filename's first two characters `"A_"` do not even equal
the matched identifier's `"A"`). -/
theorem c1_counterexample :
    (Result.mk "A_sample.wav" [("A", 500), ("B", 7000), ("C", 8000)] 0).result_type
        = some "FALSE"
    ∧ (Result.mk "A_sample.wav" [("A", 500), ("B", 7000), ("C", 8000)] 0).result_type
        ≠ some "MATCH" := by
  decide

/-- C1 (amended): when the TYPICAL condition fails, the verdict is
`str(...).upper()` of the Python boolean comparing the first two characters
of the target's filename with the first two characters of the matched
identifier: the string `"TRUE"` when they are equal and `"FALSE"` otherwise. -/
theorem c1_true_false (r : Result) (m : Score) (p : String × Score)
    (hm : r.mrd = some m) (hp : r.matched_golden_ptn = some p)
    (hnt : ¬ (m < 2000 ∧ 2000 < p.2)) :
    r.result_type = some (if r.filename.take 2 == p.1.take 2 then "TRUE" else "FALSE") := by
  rw [result_type_eq r m p hm hp, if_neg hnt]
  rfl

/-- C1 witness: a non-TYPICAL result whose filename and matched identifier
agree on the first two characters is classified `"TRUE"`. -/
theorem c1_true_false_witness :
    (Result.mk "AB.wav" [("AB", 500), ("C", 9000)] 0).result_type = some "TRUE" :=
  c1_true_false (Result.mk "AB.wav" [("AB", 500), ("C", 9000)] 0) 8500 ("AB", 500)
    (by decide) (by decide) (by decide)

lemma runFrom_all_empty (env : GoldenEnv) (stream : Nat → CacheState)
    (h : ∀ i, stream i = CacheState.empty) :
    ∀ fuel i, runFrom env stream i fuel = none := by
  intro fuel
  induction fuel with
  | zero => intro i; rfl
  | succ n ih =>
      intro i
      simp only [runFrom, h i, readStep]
      exact ih (i + 1)

/-- C3 counterexample: with a cache blob that stays zero bytes, the retry
loop of `read_golden_ptns` never returns (and never raises): the call does
not terminate, contradicting "eventually terminates, returning a valid
ReferenceLibrary". -/
theorem c3_counterexample : read_never_finishes envDemo emptyStream :=
  fun fuel => runFrom_all_empty envDemo emptyStream (fun _ => rfl) fuel 0

/-- C3 (amended): with a persistently zero-byte cache blob,
`read_golden_ptns` never raises to its caller — but it also never returns:
every iteration takes the warn-and-retry branch, so the call terminates only
if some other process changes the blob's state. -/
theorem c3_empty_blob_never_raises (env : GoldenEnv) (stream : Nat → CacheState)
    (h : ∀ i, stream i = CacheState.empty) (fuel : Nat) :
    read_golden_ptns env stream fuel = none :=
  runFrom_all_empty env stream h fuel 0

/-- C3 witness: the amended claim at a concrete environment and fuel. -/
theorem c3_empty_blob_never_raises_witness :
    read_golden_ptns envDemo emptyStream 3 = none :=
  c3_empty_blob_never_raises envDemo emptyStream (fun _ => rfl) 3

/-- C4 counterexample: with no cache blob and a readable golden directory
containing no usable audio files, `read_golden_ptns` does not raise
`IOError`: it returns the empty library (built via the build branch). -/
theorem c4_counterexample :
    read_golden_ptns envEmptyDir absentStream 1 = some (.ok ([], true)) := rfl

/-- C4 (amended): with no cache blob, `read_golden_ptns` raises `IOError`
when the golden directory is unreadable; a readable directory containing no
usable audio files is not an error — the call returns an empty library. -/
theorem c4_unreadable_raises (env : GoldenEnv) (stream : Nat → CacheState)
    (h0 : stream 0 = CacheState.absent) :
    (env.listable = false →
      read_golden_ptns env stream 1
        = some (.error (.ioError "golden_wav folder unreadable"))) ∧
    (env.listable = true → env.files = [] →
      read_golden_ptns env stream 1 = some (.ok ([], true))) := by
  constructor
  · intro hl
    simp only [read_golden_ptns, runFrom, h0, readStep, hl]
    rfl
  · intro hl hf
    simp only [read_golden_ptns, runFrom, h0, readStep, hl, hf, extractAll]
    rfl

/-- C4 witness: the unreadable-directory branch at a concrete input. -/
theorem c4_unreadable_raises_witness :
    read_golden_ptns envUnreadable absentStream 1
      = some (.error (.ioError "golden_wav folder unreadable")) :=
  (c4_unreadable_raises envUnreadable absentStream rfl).1 rfl

/-- C7: an empty or undeserializable cache blob is never surfaced: the loop
iteration observing it produces a retry (a logged warning), and the loop
simply moves on to its next iteration rather than raising. -/
theorem c7_transient_retry (env : GoldenEnv) (st : CacheState)
    (h : st = CacheState.empty ∨ ∃ m, st = CacheState.corrupt m) :
    (∃ w, readStep env st = StepOut.retry w) ∧
    (∀ stream i fuel, stream i = st →
      runFrom env stream i (fuel + 1) = runFrom env stream (i + 1) fuel) := by
  have hr : ∃ w, readStep env st = StepOut.retry w := by
    rcases h with h | ⟨m, h⟩ <;> subst h
    · exact ⟨_, rfl⟩
    · exact ⟨_, rfl⟩
  refine ⟨hr, ?_⟩
  intro stream i fuel hs
  obtain ⟨w, hw⟩ := hr
  simp only [runFrom, hs, hw]

/-- C7 witness: instantiated on the zero-byte blob state. -/
theorem c7_transient_retry_witness :
    (∃ w, readStep envDemo CacheState.empty = StepOut.retry w) ∧
    runFrom envDemo emptyStream 0 1 = runFrom envDemo emptyStream 1 0 :=
  ⟨(c7_transient_retry envDemo CacheState.empty (Or.inl rfl)).1,
   (c7_transient_retry envDemo CacheState.empty (Or.inl rfl)).2 emptyStream 0 0 rfl⟩

/-- C8: with a populated, valid cache blob, `read_golden_ptns` returns the
blob's contents immediately with the build flag `false` (the build branch
never runs), and any two such calls return identical contents. -/
theorem c8_idempotent (env : GoldenEnv) (lib : Lib) (f₁ f₂ : Nat)
    (h₁ : 1 ≤ f₁) (h₂ : 1 ≤ f₂) :
    read_golden_ptns env (fun _ => CacheState.valid lib) f₁ = some (.ok (lib, false)) ∧
    read_golden_ptns env (fun _ => CacheState.valid lib) f₁
      = read_golden_ptns env (fun _ => CacheState.valid lib) f₂ := by
  have key : ∀ f : Nat, 1 ≤ f →
      read_golden_ptns env (fun _ => CacheState.valid lib) f = some (.ok (lib, false)) := by
    intro f hf
    obtain ⟨g, rfl⟩ : ∃ g, f = g + 1 := ⟨f - 1, (Nat.succ_pred_eq_of_pos hf).symm⟩
    simp only [read_golden_ptns, runFrom, readStep]
  exact ⟨key f₁ h₁, (key f₁ h₁).trans (key f₂ h₂).symm⟩

/-- C8 witness: two calls on a concrete valid cache. -/
theorem c8_idempotent_witness :
    read_golden_ptns envDemo (fun _ => CacheState.valid libDemo) 1
      = some (.ok (libDemo, false)) ∧
    read_golden_ptns envDemo (fun _ => CacheState.valid libDemo) 1
      = read_golden_ptns envDemo (fun _ => CacheState.valid libDemo) 2 :=
  c8_idempotent envDemo libDemo 1 2 (by decide) (by decide)

/-- C2 counterexample: when `wav.read` raises after `ffmpeg` created the
temporary artifact, `televoice_identify` propagates the exception and the
artifact is still on disk — the cleanup step is only reached on the normal
path. -/
theorem c2_counterexample :
    (televoice_identify envWavFail "t.wav").1 = IdOutcome.raised (.ioError "tmp unreadable") ∧
    (televoice_identify envWavFail "t.wav").2.tmpExists = true :=
  ⟨rfl, rfl⟩

/-- C2 (amended): the temporary artifact is removed before
`televoice_identify` returns normally (provided the `os.remove` call itself
does not fail on a still-existing file), and no artifact exists when the
call exits via `sys.exit` on a missing `ffmpeg`; on exception paths after
normalization the artifact may remain. -/
theorem c2_cleanup_on_return (env : PipeEnv) (fp : String)
    (hrem : env.removeFails = false) :
    (∀ r, (televoice_identify env fp).1 = IdOutcome.ok r →
        (televoice_identify env fp).2.tmpExists = false) ∧
    (∀ c msg, (televoice_identify env fp).1 = IdOutcome.exited c msg →
        (televoice_identify env fp).2.tmpExists = false) := by
  obtain ⟨g, ff, mk, wr, mf, cp, rem, el⟩ := env
  simp only at hrem
  subst hrem
  cases g <;> cases ff <;> cases wr <;> cases mf <;> cases cp <;>
    simp [televoice_identify]

/-- C2 witness: a fully successful call leaves no temporary artifact. -/
theorem c2_cleanup_on_return_witness :
    (televoice_identify envAllOk "t.wav").2.tmpExists = false :=
  (c2_cleanup_on_return envAllOk "t.wav" rfl).1 ⟨"t.wav", [("A", 5)], 1⟩ rfl

/-- C9: when the golden patterns load and the `ffmpeg` executable cannot be
located, `televoice_identify` prints the remediation message and exits the
process with the distinguished non-zero status `2` — it neither returns a
`Result` nor propagates an `IOError` (this exit is the `ToolUnavailableError`
of the design). -/
theorem c9_ffmpeg_missing (env : PipeEnv) (fp : String) (g : Lib)
    (hg : env.golden = .ok g) (hff : env.ffmpegFound = false) :
    televoice_identify env fp
      = (IdOutcome.exited 2 "[Error] Require ffmpeg to convert the audio in sepcific format.",
         ⟨false⟩) ∧
    (2 : Nat) ≠ 0 := by
  refine ⟨?_, by decide⟩
  simp [televoice_identify, hg, hff]

/-- C9 witness: the missing-`ffmpeg` exit at a concrete environment. -/
theorem c9_ffmpeg_missing_witness :
    televoice_identify envNoFfmpeg "t.wav"
      = (IdOutcome.exited 2 "[Error] Require ffmpeg to convert the audio in sepcific format.",
         ⟨false⟩) :=
  (c9_ffmpeg_missing envNoFfmpeg "t.wav" [] rfl rfl).1

end Televoice
